import Mathlib

/-!
# Life-in-Weeks grid pipeline: a shallow embedding

This file embeds the deterministic grid-construction pipeline of the
life-in-weeks application: the calendar walk producing the chronological
box sequence (`WeeksGrid` component), the milestone color-assignment pass,
and the pixel-width row-breaking engine (`grid-layout.ts`), and proves the
specification's claims about them.

Modelling conventions:
* A JavaScript `Date` is represented by its absolute (proleptic Gregorian)
  day number, with day 0 = 0001-01-01.  All date manipulation in the
  source is at day granularity.  `formatDateString` (from the repository's
  `date-processing` module, whose source is not available) renders a date
  as an ISO `YYYY-MM-DD` string, which is injective on day numbers; box
  `date` fields, event-mapping keys and the milestone-date set are
  therefore represented directly by day numbers.
* A general JavaScript number appears only as the optional measured
  container width; it is modelled by `JSNum` (NaN / +Infinity / integer),
  since the error-handling claims distinguish exactly those cases.  The
  `0.95` safety multiplier is modelled as the exact rational floor
  `(95 * n) / 100`; for every integer width below 10^13 the double
  computation `Math.floor(n * 0.95)` agrees with it (the relative error of
  the double product is ~10^-16, far below the 1/20 distance from the next
  integer), so the integer model is faithful on the whole reachable range.
* Presentation-only `GridBox` fields that no claim mentions (`tooltip`,
  `borderClass`, `backgroundClass`, and the `age` field computed by the
  missing `getAge` helper) are omitted; `label`, `date`, `type`, `year`
  and `eventType` are kept.
-/

namespace LifeWeeks

/-! ## Calendar arithmetic (model of the JavaScript `Date`) -/

/-- Proleptic Gregorian leap-year test (what `new Date(y, 1, 29)` obeys). -/
def isLeap (y : Int) : Bool :=
  (y % 4 == 0 && y % 100 != 0) || y % 400 == 0

/-- Days from 0001-01-01 to January 1 of year `y` (proleptic Gregorian). -/
def daysBeforeYear (y : Int) : Int :=
  365 * (y - 1) + (y - 1) / 4 - (y - 1) / 100 + (y - 1) / 400

/-- Cumulative days before 1-based month `m` in a non-leap year. -/
def monthOffset (m : Int) : Int :=
  if m ≤ 1 then 0
  else if m = 2 then 31
  else if m = 3 then 59
  else if m = 4 then 90
  else if m = 5 then 120
  else if m = 6 then 151
  else if m = 7 then 181
  else if m = 8 then 212
  else if m = 9 then 243
  else if m = 10 then 273
  else if m = 11 then 304
  else 334

/-- Absolute day number of year `y`, 1-based month `m`, day-of-month `d`
(`d` may be out of range: extra days carry over, exactly as the `Date`
constructor normalizes an overflowing day-of-month). -/
def daysFromCivil (y m d : Int) : Int :=
  daysBeforeYear y + monthOffset m + (if 2 < m ∧ isLeap y then 1 else 0) + (d - 1)

/-- Model of `new Date(y, m, d)` with 0-based month `m`, including the
month/day normalization the constructor performs. -/
def mkDate (y m d : Int) : Int :=
  daysFromCivil (y + m / 12) (m % 12 + 1) d

/-- Model of `Date.prototype.getDay`: 0 = Sunday.  Day 0 (0001-01-01) is a
Monday. -/
def dayOfWeek (t : Int) : Int := (t + 1) % 7

/-- Modelled from the spec: `getWeekStartSunday` (from the repository's
`date-processing` module, not present under `src/`) returns the
Sunday-aligned start of the week containing the given date ("Anchor date:
the Sunday-aligned start-of-week date"). -/
def getWeekStartSunday (t : Int) : Int := t - dayOfWeek t

/-! ## Events -/

inductive EventType
  | personal
  | world
  | president
  deriving DecidableEq

/-- A merged event (the fields the pipeline inspects; `description` and the
source-specific passthrough metadata only feed tooltips and are omitted).
An absent `milestone` flag is falsy in the source's truthiness tests, so it
is modelled as `false`. -/
structure MergedEvent where
  headline : String
  eventType : EventType
  milestone : Bool
  color : Option String
  deriving DecidableEq

/-- The merged date→event-list mapping, as a finite association list with
unique keys (a JS object keyed by date strings). -/
def EventMap : Type := List (Int × List MergedEvent)

/-- Lookup `mergedEvents[dateStr]`, with a miss yielding the empty list (the
source guards every access with truthiness / length checks). -/
def lookupEvents (m : EventMap) (d : Int) : List MergedEvent :=
  ((m.find? (fun p => p.1 = d)).map Prod.snd).getD []

/-- The test `e.eventType === 'personal' && e.milestone`. -/
def milestonePred (e : MergedEvent) : Bool :=
  e.eventType = EventType.personal && e.milestone

/-- Truthiness of the optional `color` field (`undefined` and the empty
string are falsy). -/
def colorTruthy : Option String → Bool
  | none => false
  | some s => !s.isEmpty

/-- The override condition of line 350:
`event.eventType === 'personal' && event.milestone && event.color`. -/
def overridePred (e : MergedEvent) : Bool :=
  milestonePred e && colorTruthy e.color

/-! ## Emoji extraction (`grid-layout.ts`) -/

/-- Membership of a code point in the single-codepoint alternatives of the
emoji regex, in the regex's alternation order (the regional-indicator pair
alternative sits between the third and fourth of these and is handled in
`matchEmojiAt`). -/
def inEmojiRange1 (c : Char) : Bool := 0x1F600 ≤ c.val && c.val ≤ 0x1F64F
def inEmojiRange2 (c : Char) : Bool := 0x1F300 ≤ c.val && c.val ≤ 0x1F5FF
def inEmojiRange3 (c : Char) : Bool := 0x1F680 ≤ c.val && c.val ≤ 0x1F6FF
def isRegionalIndicator (c : Char) : Bool := 0x1F1E0 ≤ c.val && c.val ≤ 0x1F1FF
def inEmojiRangeLate (c : Char) : Bool :=
  (0x2600 ≤ c.val && c.val ≤ 0x26FF) ||
  (0x2700 ≤ c.val && c.val ≤ 0x27BF) ||
  (0x1F900 ≤ c.val && c.val ≤ 0x1F9FF) ||
  (0x1F018 ≤ c.val && c.val ≤ 0x1F270) ||
  (0x1F000 ≤ c.val && c.val ≤ 0x1F02F) ||
  (0x1F0A0 ≤ c.val && c.val ≤ 0x1F0FF)

/-- Attempt of the emoji regex at one position: alternatives in order;
a regional-indicator pair matches two code points, and a lone regional
indicator still matches through the `\u{1F018}-\u{1F270}` alternative. -/
def matchEmojiAt (c : Char) (rest : List Char) : Option (List Char) :=
  if inEmojiRange1 c then some [c]
  else if inEmojiRange2 c then some [c]
  else if inEmojiRange3 c then some [c]
  else if isRegionalIndicator c then
    match rest with
    | c2 :: _ => if isRegionalIndicator c2 then some [c, c2] else some [c]
    | [] => some [c]
  else if inEmojiRangeLate c then some [c]
  else none

/-- First match of the emoji regex over the code points of the text.
The source's extra flag-pair concatenation branch (`match[0] + nextChar`)
is unreachable under UTF-16 semantics: it requires a BMP match followed by
`charAt` yielding a character matching an astral range, which a single
UTF-16 unit never does; the embedding therefore returns the raw first
match. -/
def extractFirstEmojiChars : List Char → Option (List Char)
  | [] => none
  | c :: rest =>
    match matchEmojiAt c rest with
    | some m => some m
    | none => extractFirstEmojiChars rest

def extractFirstEmoji (text : String) : Option String :=
  (extractFirstEmojiChars text.data).map (fun cs => String.mk cs)

/-- Model of `createCompactEventLabel`: the first emoji, or the empty string. -/
def createCompactEventLabel (headline : String) : String :=
  (extractFirstEmoji headline).getD ""

/-- Model of `shouldShowInCompact`: the headline contains an emoji glyph. -/
def shouldShowInCompact (headline : String) : Bool :=
  extractFirstEmoji headline != none

/-- Model of `createBirthdayLabel`. -/
def createBirthdayLabel (age year : Int) (compactMode : Bool) : String :=
  if compactMode then s!"🎂{age}" else s!"🎂 {age} in {year}"

/-! ## Grid boxes and the calendar walk (`WeeksGrid`) -/

inductive BoxType
  | birthday
  | event
  | week
  deriving DecidableEq

structure GridBox where
  type : BoxType
  label : String
  date : Int
  year : Int
  eventType : Option EventType
  deriving DecidableEq

/-- The `weeksConfig` together with the month (0-based) and day-of-month of the
parsed `startDate`.  The component anchors week 0 at the week containing
`startDate` while iterating years from `startYear`, which presumes the
birth date lies in `startYear`; the birth date is therefore
`mkDate startYear birthMonth birthDay`. -/
structure WeeksConfig where
  startYear : Int
  endYear : Int
  birthMonth : Int
  birthDay : Int
  deriving DecidableEq

def birthAbs (c : WeeksConfig) : Int :=
  mkDate c.startYear c.birthMonth c.birthDay

/-- The next birthday, `new Date(year + 1, startDate.getMonth(), startDate.getDate())`. -/
def nextBirthdayOf (c : WeeksConfig) (year : Int) : Int :=
  mkDate (year + 1) c.birthMonth c.birthDay

/-- The candidate week's anchor date for week index `w` of iteration year
`year` (lines 174–192 of the component): in the birth year, the Sunday
start of the birth week plus `7w` days; otherwise the Sunday start of the
week containing anniversary + `7w` days. -/
def weekDateOf (c : WeeksConfig) (year : Int) (w : Nat) : Int :=
  if year = c.startYear then
    getWeekStartSunday (birthAbs c) + 7 * (w : Int)
  else
    getWeekStartSunday (mkDate year c.birthMonth c.birthDay + 7 * (w : Int))

/-- The day-scan of lines 208–231: the first day offset `day ∈ [0,7)` whose
date is strictly before the next birthday and has a non-empty event list.
The source `break`s at the first day on or past the next birthday; since
the days increase, that early exit is equivalent to the conjunction in this
search predicate. -/
def scanDays (merged : EventMap) (wd nb : Int) : Option Nat :=
  (List.range 7).find? (fun day =>
    decide (wd + (day : Int) < nb) && !(lookupEvents merged (wd + (day : Int))).isEmpty)

/-- Primary-event selection (line 235): the first milestone-flagged
personal event, else the first event. -/
def primaryEvent : List MergedEvent → Option MergedEvent
  | [] => none
  | e0 :: rest => some (((e0 :: rest).find? milestonePred).getD e0)

/-- The events the week ends up using: the found day's list, defaulting to
the anchor's list (lines 204–231). -/
def eventsForWeek (merged : EventMap) (wd nb : Int) : List MergedEvent :=
  match scanDays merged wd nb with
  | some day => lookupEvents merged (wd + (day : Int))
  | none => lookupEvents merged wd

/-- One week of the walk (lines 173–296): `none` when the skip-guard fires
(anchor on or past the next birthday), otherwise the emitted box. -/
def weekBoxOf (merged : EventMap) (compactMode : Bool) (c : WeeksConfig)
    (year : Int) (w : Nat) : Option GridBox :=
  let wd := weekDateOf c year w
  let nb := nextBirthdayOf c year
  if nb ≤ wd then none
  else some (
    match primaryEvent (eventsForWeek merged wd nb) with
    | none =>
      { type := BoxType.week, label := "", date := wd, year := year, eventType := none }
    | some primary =>
      if compactMode && !shouldShowInCompact primary.headline then
        { type := BoxType.week, label := "", date := wd, year := year, eventType := none }
      else
        { type := BoxType.event,
          label := if compactMode then createCompactEventLabel primary.headline
                   else primary.headline,
          date := wd, year := year, eventType := some primary.eventType })

/-- The milestone-week side effect of the scan (lines 219–225): when the
week is emitted and the found day's events contain a milestone-flagged
personal event, the *week-start* date — the value the box will carry — is
added to the milestone set. -/
def weekMilestone (merged : EventMap) (c : WeeksConfig)
    (year : Int) (w : Nat) : Option Int :=
  let wd := weekDateOf c year w
  let nb := nextBirthdayOf c year
  if nb ≤ wd then none
  else
    match scanDays merged wd nb with
    | some day =>
      if (lookupEvents merged (wd + (day : Int))).any milestonePred then some wd else none
    | none => none

/-- The birthday box for a year with age > 0 (lines 150–166). -/
def birthdayBox (c : WeeksConfig) (year : Int) (compactMode : Bool) : GridBox :=
  { type := BoxType.birthday,
    label := createBirthdayLabel (year - c.startYear) year compactMode,
    date := mkDate year c.birthMonth c.birthDay,
    year := year,
    eventType := none }

/-- The week indices iterated in year `year`: 0–52 in the birth year,
1–52 otherwise (lines 168–173). -/
def weekIndices (c : WeeksConfig) (year : Int) : List Nat :=
  (List.range 53).drop (if year = c.startYear then 0 else 1)

/-- All boxes emitted for one iteration year. -/
def yearBoxes (merged : EventMap) (compactMode : Bool) (c : WeeksConfig)
    (year : Int) : List GridBox :=
  (if c.startYear < year then [birthdayBox c year compactMode] else []) ++
    (weekIndices c year).filterMap (weekBoxOf merged compactMode c year)

/-- The inclusive integer range `[lo, hi]` of the year loop. -/
def intRange (lo hi : Int) : List Int :=
  (List.range (hi - lo + 1).toNat).map (fun (i : Nat) => lo + (i : Int))

/-- The full chronological box sequence (lines 146–297). -/
def allBoxes (merged : EventMap) (compactMode : Bool) (c : WeeksConfig) : List GridBox :=
  (intRange c.startYear c.endYear).flatMap (yearBoxes merged compactMode c)

/-- The `milestoneWeeks` set at the start of the color pass, as the union
of its three sources: the walk's per-week additions (lines 219–225), every
merged-mapping key bearing a milestone-flagged personal event (lines
313–321), and the date of every `event` box whose events include a
milestone (lines 324–331). -/
def milestoneWeeks (merged : EventMap) (compactMode : Bool) (c : WeeksConfig) : List Int :=
  ((intRange c.startYear c.endYear).flatMap (fun year =>
      (weekIndices c year).filterMap (weekMilestone merged c year)))
    ++ (merged.filter (fun p => p.2.any milestonePred)).map Prod.fst
    ++ ((allBoxes merged compactMode c).filter (fun b =>
          b.type = BoxType.event &&
            (lookupEvents merged b.date).any milestonePred)).map GridBox.date

/-! ## Milestone color assignment (lines 307–357) -/

structure ColorState where
  colorIndex : Nat
  currentColor : String
  deriving DecidableEq

/-- One step of the color walk for one box (lines 337–357): a milestone
date advances the palette index and updates the color only while the index
is in bounds; then any milestone-flagged personal event at the box's date
with a truthy `color` overrides the current color (last such event wins);
the `boxColorMap.set` is the assignment of the resulting color to the
box's date. -/
def colorStep (palette : List String) (mweeks : List Int) (merged : EventMap)
    (s : ColorState) (b : GridBox) : ColorState :=
  let s1 :=
    if mweeks.contains b.date then
      let i := s.colorIndex + 1
      { colorIndex := i,
        currentColor := if i < palette.length then palette.getD i s.currentColor
                        else s.currentColor }
    else s
  { s1 with
    currentColor :=
      (lookupEvents merged b.date).foldl
        (fun col e => if overridePred e then e.color.getD col else col)
        s1.currentColor }

/-- The initial walk state: zero index, color = `milestoneColors[0]`.  The
`"undefined"` default models the JS subscript on an empty palette, which
the spec forbids as a precondition violation. -/
def initColorState (palette : List String) : ColorState :=
  { colorIndex := 0, currentColor := palette.getD 0 "undefined" }

/-- The color walk over a box sequence (the source runs it over the
date-sorted copy of `allBoxes`). -/
def colorWalk (palette : List String) (mweeks : List Int) (merged : EventMap)
    (boxes : List GridBox) : ColorState :=
  boxes.foldl (colorStep palette mweeks merged) (initColorState palette)

/-- The number of boxes in a sequence whose date lies in the milestone
set — the number of palette advances the walk performs over it. -/
def countMilestoneBoxes (mweeks : List Int) (boxes : List GridBox) : Nat :=
  (boxes.filter (fun b => mweeks.contains b.date)).length

/-- The date-sorted box sequence the color pass iterates (line 335); the
JS comparator on `getTime()` orders by day number, and `Array.sort` is
stable. -/
def sortedBoxes (merged : EventMap) (compactMode : Bool) (c : WeeksConfig) : List GridBox :=
  (allBoxes merged compactMode c).mergeSort (fun a b => a.date ≤ b.date)

/-! ## Responsive layout engine (`grid-layout.ts`) -/

/-- A JavaScript number as far as the measured-width handling can observe
it: NaN, +Infinity, or an integer.  (Finite measured widths are modelled
as integers; see the header note on the 0.95 multiplier.) -/
inductive JSNum
  | nan
  | inf
  | num (n : Int)
  deriving DecidableEq

/-- JS truthiness of a number: `NaN` and `0` are falsy. -/
def JSNum.truthy : JSNum → Bool
  | .nan => false
  | .inf => true
  | .num n => n != 0

/-- The comparison `w > 0` on a JS number. -/
def JSNum.gtZero : JSNum → Bool
  | .nan => false
  | .inf => true
  | .num n => 0 < n

/-- The comparison `w <= c` for an integer literal `c` (false for NaN and +Infinity). -/
def JSNum.leC (w : JSNum) (c : Int) : Bool :=
  match w with
  | .num n => n ≤ c
  | _ => false

/-- The comparison `w < c` for an integer literal `c` (false for NaN and +Infinity). -/
def JSNum.ltC (w : JSNum) (c : Int) : Bool :=
  match w with
  | .num n => n < c
  | _ => false

/-- The comparison `t >= w` for an integer `t` (false against NaN and +Infinity). -/
def geJS (t : Int) (w : JSNum) : Bool :=
  match w with
  | .num n => n ≤ t
  | _ => false

/-- The margin `Math.floor(w * 0.95)` (the 0.95 safety factor). -/
def JSNum.floor95 : JSNum → JSNum
  | .nan => .nan
  | .inf => .inf
  | .num n => .num ((95 * n) / 100)

/-- The clamp `Math.max(lo, Math.min(hi, Math.floor(w / k)))` for positive integer
literals, as used for the dynamic `basePadding` and `weekBoxMinWidth`.
For `w = +Infinity` the JS value is `hi`; the NaN case — which the caller's
positivity guard makes unreachable — would be NaN in JS and is collapsed
to `lo` to keep the field an integer. -/
def jsClampDiv (lo hi k : Int) : JSNum → Int
  | .nan => lo
  | .inf => hi
  | .num n => max lo (min hi (n / k))

structure ResponsiveConstants where
  containerWidth : JSNum
  basePadding : Int
  charWidth : Int
  weekBoxMinWidth : Int
  deriving DecidableEq

/-- The static `GRID_CONSTANTS` table. -/
def gridConstants (compactMode : Bool) (breakpoint : Nat) : ResponsiveConstants :=
  -- breakpoints numbered 0 = extraSmall, 1 = mobile, 2 = tablet,
  -- 3 = desktop, 4 = wide, 5 = ultrawide
  if compactMode then
    if breakpoint = 0 then ⟨.num 307, 0, 5, 4⟩
    else if breakpoint = 1 then ⟨.num 461, 0, 6, 5⟩
    else if breakpoint = 2 then ⟨.num 573, 1, 7, 6⟩
    else if breakpoint = 3 then ⟨.num 668, 1, 8, 8⟩
    else if breakpoint = 4 then ⟨.num 1190, 1, 8, 8⟩
    else ⟨.num 1440, 1, 8, 8⟩
  else
    if breakpoint = 0 then ⟨.num 307, 2, 5, 12⟩
    else if breakpoint = 1 then ⟨.num 737, 3, 6, 15⟩
    else if breakpoint = 2 then ⟨.num 573, 4, 7, 17⟩
    else if breakpoint = 3 then ⟨.num 668, 7, 8, 20⟩
    else if breakpoint = 4 then ⟨.num 1190, 8, 8, 20⟩
    else ⟨.num 1440, 8, 8, 20⟩

/-- Model of `calculateDynamicConstants`: constants from a measured width, then the
0.95 safety margin on the container width. -/
def calculateDynamicConstants (containerWidth : JSNum) (compactMode : Bool) :
    ResponsiveConstants :=
  if compactMode then
    if containerWidth.leC 480 then
      ⟨containerWidth.floor95, 2, 7, 14⟩
    else if containerWidth.leC 768 then
      ⟨containerWidth.floor95, 2, 8, 14⟩
    else
      ⟨containerWidth.floor95, 2, 10, 16⟩
  else
    { containerWidth := containerWidth.floor95,
      basePadding := jsClampDiv 2 8 150 containerWidth,
      charWidth :=
        if containerWidth.ltC 350 then 5
        else if containerWidth.ltC 500 then 6
        else if containerWidth.ltC 650 then 7
        else 8,
      weekBoxMinWidth := jsClampDiv 12 20 50 containerWidth }

/-- The rendering environment the engine reads implicitly:
`window.innerWidth` when a window exists (`none` models server-side
rendering, where `typeof window === 'undefined'`). -/
structure LayoutEnv where
  viewport : Option Int
  deriving DecidableEq

/-- The static-breakpoint ladder of `getResponsiveConstants` (viewport
thresholds mirroring the CSS media queries). -/
def staticBreakpoint (width : Int) : Nat :=
  if width < 480 then 0
  else if width ≤ 768 then 1
  else if width < 1024 then 2
  else if width < 1400 then 3
  else if width < 1800 then 4
  else 5

/-- Model of `getResponsiveConstants`: the dynamic branch is taken exactly when the
measured width is truthy and `> 0` (`measuredWidth && measuredWidth > 0`);
otherwise the static table, with the desktop row as the server-side
fallback. -/
def getResponsiveConstants (env : LayoutEnv) (compactMode : Bool)
    (measuredWidth : Option JSNum) : ResponsiveConstants :=
  match measuredWidth with
  | some w =>
    if w.truthy && w.gtZero then calculateDynamicConstants w compactMode
    else
      match env.viewport with
      | none => gridConstants compactMode 3
      | some vw => gridConstants compactMode (staticBreakpoint vw)
  | none =>
    match env.viewport with
    | none => gridConstants compactMode 3
    | some vw => gridConstants compactMode (staticBreakpoint vw)

/-- Model of `calculateWeekCellWidth`: fixed empty-cell widths; the normal-mode
branch reads the *viewport* width (1200 in the server fallback), not the
measured container width. -/
def calculateWeekCellWidth (env : LayoutEnv) (compactMode : Bool) : Int :=
  if compactMode then 4 + 2 + 2 + 1
  else
    let viewportWidth := env.viewport.getD 1200
    if viewportWidth ≤ 768 then 18 else 26

/-- JS `String.prototype.length`: UTF-16 code units. -/
def jsStrLen (s : String) : Int :=
  s.data.foldl (fun n c => n + (if c.val < 0x10000 then 1 else 2)) 0

/-- Model of `calculateBoxWidth`: label length × char width + padding + border + gap. -/
def calculateBoxWidth (env : LayoutEnv) (label : String) (compactMode : Bool)
    (measuredWidth : Option JSNum) : Int :=
  let constants := getResponsiveConstants env compactMode measuredWidth
  jsStrLen label * constants.charWidth + constants.basePadding * 2 + 2 + 1

/-- Model of `shouldBreakBeforeBox`: the next box's width is chosen by *label*
truthiness (empty label ⇒ empty-week-cell width), and the break test is
`total >= containerWidth`. -/
def shouldBreakBeforeBox (env : LayoutEnv) (currentRowWidth : Int)
    (nextBoxLabel : String) (compactMode : Bool) (measuredWidth : Option JSNum) : Bool :=
  let constants := getResponsiveConstants env compactMode measuredWidth
  let nextBoxWidth :=
    if !nextBoxLabel.isEmpty then calculateBoxWidth env nextBoxLabel compactMode measuredWidth
    else calculateWeekCellWidth env compactMode
  geJS (currentRowWidth + nextBoxWidth) constants.containerWidth

/-- The width a box contributes to the running row total in
`processBoxesIntoRows`: chosen by box *type* (unlike the break test). -/
def boxWidthOf (env : LayoutEnv) (compactMode : Bool) (measuredWidth : Option JSNum)
    (b : GridBox) : Int :=
  if b.type = BoxType.week then calculateWeekCellWidth env compactMode
  else calculateBoxWidth env b.label compactMode measuredWidth

/-- One step of the packing pass: `(rows so far, current row, its width)`. -/
def packStep (env : LayoutEnv) (compactMode : Bool) (measuredWidth : Option JSNum)
    (s : List (List GridBox) × List GridBox × Int) (b : GridBox) :
    List (List GridBox) × List GridBox × Int :=
  let boxWidth := boxWidthOf env compactMode measuredWidth b
  let shouldBreakWidth := shouldBreakBeforeBox env s.2.2 b.label compactMode measuredWidth
  if shouldBreakWidth && !s.2.1.isEmpty then
    (s.1 ++ [s.2.1], [b], boxWidth)
  else
    (s.1, s.2.1 ++ [b], s.2.2 + boxWidth)

/-- Model of `processBoxesIntoRows`: greedy single-pass packing, flushing a
non-empty trailing row. -/
def processBoxesIntoRows (env : LayoutEnv) (boxes : List GridBox)
    (compactMode : Bool) (measuredWidth : Option JSNum) : List (List GridBox) :=
  let s := boxes.foldl (packStep env compactMode measuredWidth) ([], [], 0)
  if !s.2.1.isEmpty then s.1 ++ [s.2.1] else s.1

/-- The accumulated pixel width of a row (the sum the pass maintains). -/
def rowWidth (env : LayoutEnv) (compactMode : Bool) (measuredWidth : Option JSNum)
    (r : List GridBox) : Int :=
  (r.map (boxWidthOf env compactMode measuredWidth)).sum

/-- The next row's width constraint: a produced row is strictly below the
effective container width, or is a single (possibly over-wide) box. -/
def rowBelow (env : LayoutEnv) (k : Bool) (mw : Option JSNum) (r : List GridBox) : Prop :=
  r.length = 1 ∨
    geJS (rowWidth env k mw r) (getResponsiveConstants env k mw).containerWidth = false

/-- The break between two adjacent rows was forced: appending the next
row's first box would have made the previous row's width reach or exceed
the effective container width. -/
def forcedBreak (env : LayoutEnv) (k : Bool) (mw : Option JSNum)
    (r r' : List GridBox) : Prop :=
  ∀ b ∈ r'.head?, geJS (rowWidth env k mw r + boxWidthOf env k mw b)
    (getResponsiveConstants env k mw).containerWidth = true

/-- A box whose label truthiness agrees with its type — as every box the
walker emits does (week boxes carry empty labels, birthday and shown event
boxes carry non-empty ones).  The pass measures a box by its *type* when
accumulating but by its *label* in the break test, so the two agree
exactly on such boxes. -/
def labelConsistent (b : GridBox) : Prop := b.type = BoxType.week ↔ b.label = ""

/-- The packing-pass invariant behind C5. -/
def packInv (env : LayoutEnv) (k : Bool) (mw : Option JSNum)
    (s : List (List GridBox) × List GridBox × Int) : Prop :=
  s.2.2 = rowWidth env k mw s.2.1 ∧
  (s.2.1 = [] → s.1 = []) ∧
  (∀ r ∈ s.1, rowBelow env k mw r) ∧
  (s.2.1 ≠ [] → rowBelow env k mw s.2.1) ∧
  (s.2.1 ≠ [] → List.Chain' (forcedBreak env k mw) (s.1 ++ [s.2.1]))

/-! ## Concrete instances used by counterexamples and witnesses -/

/-- C5 counterexample data: event-type boxes with empty labels make the
break test use the 18px empty-cell width while the accumulator adds the
19px labeled-box width (padding 8 at measured width 1200, viewport 500). -/
def cexBoxC5 : GridBox :=
  { type := BoxType.event, label := "", date := 0, year := 2000, eventType := none }

def cexBoxesC5 : List GridBox := List.replicate 60 cexBoxC5

def cexEnvC5 : LayoutEnv := ⟨some 500⟩

def cexMwC5 : Option JSNum := some (JSNum.num 1200)

/-- C5 witness data: three empty week boxes. -/
def wBoxC5 : GridBox :=
  { type := BoxType.week, label := "", date := 0, year := 2000, eventType := none }

/-- An empty week box at day 0 (year 2000), for color-walk instances. -/
def cexBoxC6 : GridBox :=
  { type := BoxType.week, label := "", date := 0, year := 2000, eventType := none }

/-- A world event carrying an explicit color override. -/
def cexEventC7 : MergedEvent :=
  { headline := "W", eventType := EventType.world, milestone := false, color := some "X" }

def cexMergedC7 : EventMap := [(0, [cexEventC7])]

/-- A milestone personal event carrying an explicit color override. -/
def cexEventC7w : MergedEvent :=
  { headline := "P", eventType := EventType.personal, milestone := true, color := some "X" }

def cexMergedC7w : EventMap := [(0, [cexEventC7w])]

/-- Concrete configuration for the C3 counterexample: birth 2000-01-15. -/
def cexCfgC3 : WeeksConfig := ⟨2000, 2000, 0, 15⟩

/-- A milestone personal event two days after the week-1 anchor. -/
def cexEventC3 : MergedEvent :=
  { headline := "Party", eventType := EventType.personal, milestone := true, color := none }

def cexMergedC3 : EventMap := [(weekDateOf cexCfgC3 2000 1 + 2, [cexEventC3])]

/-- A non-milestone personal event on the week-1 anchor itself, shadowing
the milestone two days later: the day scan breaks at the anchor. -/
def cexAnchorEventC6 : MergedEvent :=
  { headline := "Met friend", eventType := EventType.personal, milestone := false,
    color := none }

/-- A milestone personal event on a later weekday of the same week. -/
def cexShadowedEventC6 : MergedEvent :=
  { headline := "Graduated", eventType := EventType.personal, milestone := true,
    color := none }

def cexMergedC6 : EventMap :=
  [(weekDateOf cexCfgC3 2000 1, [cexAnchorEventC6]),
   (weekDateOf cexCfgC3 2000 1 + 2, [cexShadowedEventC6])]

/-- Concrete C8 instance: a milestone personal event with a glyph-free
headline on the week-1 anchor itself. -/
def cexEventC8 : MergedEvent :=
  { headline := "Started job", eventType := EventType.personal, milestone := true,
    color := none }

def cexMergedC8 : EventMap := [(weekDateOf cexCfgC3 2000 1, [cexEventC8])]

/-! ## Calendar lemmas: year gaps and week anchors -/

theorem daysBeforeYear_succ (y : Int) :
    daysBeforeYear (y + 1) = daysBeforeYear y + 365 + (if isLeap y then 1 else 0) := by
  simp only [daysBeforeYear, isLeap, Bool.or_eq_true, Bool.and_eq_true, beq_iff_eq,
    bne_iff_ne, ne_eq, add_sub_cancel_right]
  split_ifs with h <;> omega

theorem mkDate_succ_ge (y m d : Int) (h0 : 0 ≤ m) (h1 : m < 12) :
    mkDate y m d + 365 ≤ mkDate (y + 1) m d := by
  have hdiv : m / 12 = 0 := by omega
  have hy := daysBeforeYear_succ y
  have hle : (if 2 < m % 12 + 1 ∧ isLeap y then (1 : Int) else 0)
      ≤ (if isLeap y then (1 : Int) else 0) := by
    split_ifs with h h2
    · exact le_refl _
    · exact absurd h.2 h2
    · exact zero_le_one
    · exact le_refl _
  have hge : (0 : Int) ≤ (if 2 < m % 12 + 1 ∧ isLeap (y + 1) then (1 : Int) else 0) := by
    split_ifs
    · exact zero_le_one
    · exact le_refl _
  simp only [mkDate, hdiv, add_zero, daysFromCivil] at *
  omega

theorem mkDate_mono (m d : Int) (hm0 : 0 ≤ m) (hm1 : m < 12) {y y' : Int} (h : y ≤ y') :
    mkDate y m d ≤ mkDate y' m d :=
  Int.le_induction (P := fun n => mkDate y m d ≤ mkDate n m d) (le_refl _)
    (fun n _ ih => by have := mkDate_succ_ge n m d hm0 hm1; omega) y' h

theorem getWeekStartSunday_le (t : Int) : getWeekStartSunday t ≤ t := by
  unfold getWeekStartSunday dayOfWeek
  omega

theorem getWeekStartSunday_ge (t : Int) : t - 6 ≤ getWeekStartSunday t := by
  unfold getWeekStartSunday dayOfWeek
  omega

/-- Both week-anchoring branches compute the Sunday start of the year's
anchor plus `7w` days (the anniversary's weekday is `7w`-periodic). -/
theorem weekDateOf_eq (c : WeeksConfig) (year : Int) (w : Nat) :
    weekDateOf c year w
      = getWeekStartSunday (mkDate year c.birthMonth c.birthDay) + 7 * (w : Int) := by
  unfold weekDateOf birthAbs getWeekStartSunday dayOfWeek
  split_ifs with h
  · rw [h]
  · omega

/-- The skip-guard of line 196 can never fire: every candidate anchor for
week indices 0–52 is strictly before the next birthday, because the year
gap is at least 365 days while the anchor is at most `7·52 = 364` days
past the (Sunday-aligned, hence not later) anniversary. -/
theorem weekDateOf_lt_nextBirthday (c : WeeksConfig) (h0 : 0 ≤ c.birthMonth)
    (h1 : c.birthMonth < 12) (year : Int) (w : Nat) (hw : w ≤ 52) :
    weekDateOf c year w < nextBirthdayOf c year := by
  have hgap := mkDate_succ_ge year c.birthMonth c.birthDay h0 h1
  have hle := getWeekStartSunday_le (mkDate year c.birthMonth c.birthDay)
  rw [weekDateOf_eq]
  unfold nextBirthdayOf
  omega

/-! ## The walker's per-week and per-year structure -/

theorem weekBoxOf_isSome (merged : EventMap) (k : Bool) (c : WeeksConfig)
    (year : Int) (w : Nat) (h : weekDateOf c year w < nextBirthdayOf c year) :
    (weekBoxOf merged k c year w).isSome := by
  simp only [weekBoxOf]
  rw [if_neg (by omega)]
  rfl

theorem weekBoxOf_some_spec {merged : EventMap} {k : Bool} {c : WeeksConfig}
    {year : Int} {w : Nat} {b : GridBox}
    (h : weekBoxOf merged k c year w = some b) :
    b.year = year ∧ b.type ≠ BoxType.birthday ∧ b.date = weekDateOf c year w := by
  simp only [weekBoxOf] at h
  split at h
  · cases h
  · rw [Option.some.injEq] at h
    split at h
    · subst h
      exact ⟨rfl, by simp, rfl⟩
    · split at h <;> (subst h; exact ⟨rfl, by simp, rfl⟩)

theorem length_filterMap_of_isSome {α β : Type} (f : α → Option β) :
    ∀ l : List α, (∀ x ∈ l, (f x).isSome) → (l.filterMap f).length = l.length := by
  intro l
  induction l with
  | nil => intro _; rfl
  | cons a t ih =>
    intro h
    rcases Option.isSome_iff_exists.mp (h a (List.mem_cons_self a t)) with ⟨b, hb⟩
    rw [List.filterMap_cons, hb]
    simp only [List.length_cons]
    rw [ih (fun x hx => h x (List.mem_cons_of_mem a hx))]

theorem weekIndices_length (c : WeeksConfig) (year : Int) :
    (weekIndices c year).length = if year = c.startYear then 53 else 52 := by
  unfold weekIndices
  split_ifs <;> simp

theorem weekIndices_mem_bounds {c : WeeksConfig} {year : Int} {w : Nat}
    (h : w ∈ weekIndices c year) :
    w ≤ 52 ∧ (year ≠ c.startYear → 1 ≤ w) := by
  unfold weekIndices at h
  split_ifs at h with hy
  · refine ⟨?_, fun hne => absurd hy hne⟩
    have := List.mem_range.mp (by simpa using h)
    omega
  · rw [List.range_succ_eq_map, List.drop_one, List.tail_cons] at h
    rcases List.mem_map.mp h with ⟨i, hi, rfl⟩
    have := List.mem_range.mp hi
    omega

theorem yearBoxes_mem_year {merged : EventMap} {k : Bool} {c : WeeksConfig}
    {year : Int} {b : GridBox} (h : b ∈ yearBoxes merged k c year) :
    b.year = year := by
  unfold yearBoxes at h
  rcases List.mem_append.mp h with h | h
  · split_ifs at h with hy
    · rw [List.mem_singleton.mp h]
      rfl
    · cases h
  · rcases List.mem_filterMap.mp h with ⟨w, _, hw⟩
    exact (weekBoxOf_some_spec hw).1

theorem intRange_nodup (lo hi : Int) : (intRange lo hi).Nodup := by
  unfold intRange
  exact List.Nodup.map (fun i j h => by omega) (List.nodup_range _)

theorem mem_intRange {lo hi x : Int} : x ∈ intRange lo hi ↔ lo ≤ x ∧ x ≤ hi := by
  unfold intRange
  constructor
  · intro h
    rcases List.mem_map.mp h with ⟨i, hi, rfl⟩
    have := List.mem_range.mp hi
    omega
  · intro h
    refine List.mem_map.mpr ⟨(x - lo).toNat, List.mem_range.mpr (by omega), by omega⟩

theorem filter_flatMap_single {α β : Type} (l : List α) (f : α → List β)
    (p : β → Bool) (a : α) (hnd : l.Nodup) (ha : a ∈ l)
    (hother : ∀ x ∈ l, x ≠ a → (f x).filter p = []) :
    (l.flatMap f).filter p = (f a).filter p := by
  induction l with
  | nil => cases ha
  | cons x t ih =>
    rw [List.flatMap_cons, List.filter_append]
    have hnd' := List.nodup_cons.mp hnd
    rcases List.mem_cons.mp ha with rfl | ha'
    · have ht : (t.flatMap f).filter p = [] := by
        rw [List.filter_flatMap]
        apply List.flatMap_eq_nil_iff.mpr
        intro z hz
        exact hother z (List.mem_cons_of_mem a hz) (fun hz' => hnd'.1 (hz' ▸ hz))
      rw [ht, List.append_nil]
    · have hx : (f x).filter p = [] :=
        hother x (List.mem_cons_self x t) (by rintro rfl; exact hnd'.1 ha')
      rw [hx, List.nil_append]
      exact ih hnd'.2 ha' (fun z hz hne => hother z (List.mem_cons_of_mem x hz) hne)

/-- Filtering the emitted sequence down to one iteration year yields that
year's own boxes: every year appears once in the loop and different years
contribute disjoint `year` fields. -/
theorem allBoxes_year_filter (merged : EventMap) (k : Bool) (c : WeeksConfig)
    {year : Int} (hy1 : c.startYear ≤ year) (hy2 : year ≤ c.endYear) (p : GridBox → Bool) :
    (allBoxes merged k c).filter (fun b => decide (b.year = year) && p b)
      = (yearBoxes merged k c year).filter (fun b => decide (b.year = year) && p b) := by
  unfold allBoxes
  refine filter_flatMap_single _ _ _ year (intRange_nodup _ _)
    (mem_intRange.mpr ⟨hy1, hy2⟩) ?_
  intro x hx hne
  rw [List.filter_eq_nil_iff]
  intro b hb
  have hb' := yearBoxes_mem_year hb
  simp [hb', hne]

theorem yearBoxes_filter_weekSlots (merged : EventMap) (k : Bool) (c : WeeksConfig)
    {year : Int}
    (hguard : ∀ w ∈ weekIndices c year, weekDateOf c year w < nextBirthdayOf c year) :
    ((yearBoxes merged k c year).filter
        (fun b => decide (b.year = year) && !decide (b.type = BoxType.birthday))).length
      = (weekIndices c year).length := by
  unfold yearBoxes
  rw [List.filter_append]
  have h1 : (if c.startYear < year then [birthdayBox c year k] else []).filter
      (fun b => decide (b.year = year) && !decide (b.type = BoxType.birthday)) = [] := by
    split_ifs <;> simp [birthdayBox]
  have h2 : ∀ b ∈ (weekIndices c year).filterMap (weekBoxOf merged k c year),
      (decide (b.year = year) && !decide (b.type = BoxType.birthday)) = true := by
    intro b hb
    rcases List.mem_filterMap.mp hb with ⟨w, _, hsome⟩
    have hs := weekBoxOf_some_spec hsome
    simp [hs.1, hs.2.1]
  rw [h1, List.nil_append, List.filter_eq_self.mpr h2]
  exact length_filterMap_of_isSome _ _
    (fun w hw => weekBoxOf_isSome merged k c year w (hguard w hw))

theorem yearBoxes_filter_birthday (merged : EventMap) (k : Bool) (c : WeeksConfig)
    {year : Int} :
    ((yearBoxes merged k c year).filter
        (fun b => decide (b.year = year) && decide (b.type = BoxType.birthday))).length
      = if c.startYear < year then 1 else 0 := by
  unfold yearBoxes
  rw [List.filter_append]
  have h2 : ((weekIndices c year).filterMap (weekBoxOf merged k c year)).filter
      (fun b => decide (b.year = year) && decide (b.type = BoxType.birthday)) = [] := by
    rw [List.filter_eq_nil_iff]
    intro b hb
    rcases List.mem_filterMap.mp hb with ⟨w, _, hsome⟩
    have hs := weekBoxOf_some_spec hsome
    simp [hs.2.1]
  rw [h2, List.append_nil]
  split_ifs with h
  · simp [birthdayBox]
  · simp

/-- C1: For every configuration with startYear < endYear, each age-year in
the emitted box sequence contains exactly 52 or 53 week-type boxes — never
more, never fewer — plus exactly one birthday box for each age greater
than 0.  (The birth year yields 53, every later year 52; the skip guard
never removes a week index.) -/
theorem C1_boxes_per_age_year (merged : EventMap) (k : Bool) (c : WeeksConfig)
    (hm0 : 0 ≤ c.birthMonth) (hm1 : c.birthMonth < 12)
    (hr : c.startYear < c.endYear) {year : Int}
    (hy1 : c.startYear ≤ year) (hy2 : year ≤ c.endYear) :
    (((allBoxes merged k c).filter
        (fun b => decide (b.year = year) && !decide (b.type = BoxType.birthday))).length = 52 ∨
     ((allBoxes merged k c).filter
        (fun b => decide (b.year = year) && !decide (b.type = BoxType.birthday))).length = 53) ∧
    ((allBoxes merged k c).filter
        (fun b => decide (b.year = year) && decide (b.type = BoxType.birthday))).length
      = if c.startYear < year then 1 else 0 := by
  have hguard : ∀ w ∈ weekIndices c year, weekDateOf c year w < nextBirthdayOf c year :=
    fun w hw => weekDateOf_lt_nextBirthday c hm0 hm1 year w (weekIndices_mem_bounds hw).1
  constructor
  · rw [allBoxes_year_filter merged k c hy1 hy2, yearBoxes_filter_weekSlots merged k c hguard,
      weekIndices_length]
    split_ifs <;> omega
  · rw [allBoxes_year_filter merged k c hy1 hy2, yearBoxes_filter_birthday]

/-- C1 witness. -/
theorem C1_boxes_per_age_year_witness :
    (0 : Int) ≤ 0 ∧ (0 : Int) < 12 ∧ (2000 : Int) < 2002 ∧ (2000 : Int) ≤ 2001 ∧
        (2001 : Int) ≤ 2002 ∧
      ((((allBoxes [] false ⟨2000, 2002, 0, 15⟩).filter
          (fun b => decide (b.year = 2001) && !decide (b.type = BoxType.birthday))).length = 52 ∨
        (((allBoxes [] false ⟨2000, 2002, 0, 15⟩).filter
          (fun b => decide (b.year = 2001) && !decide (b.type = BoxType.birthday))).length = 53)) ∧
       ((allBoxes [] false ⟨2000, 2002, 0, 15⟩).filter
          (fun b => decide (b.year = 2001) && decide (b.type = BoxType.birthday))).length
        = if (2000 : Int) < 2001 then 1 else 0) :=
  ⟨by decide, by decide, by decide, by decide, by decide,
    C1_boxes_per_age_year [] false ⟨2000, 2002, 0, 15⟩ (by decide) (by decide) (by decide)
      (by decide) (by decide)⟩

/-- C10: In the birth-year iteration (age 0) no week index is skipped —
every anchor for week indices 0–52 is strictly before the first
anniversary, so the guard never fires — and exactly 53 boxes are emitted,
all of them week-type (no birthday box in the birth year). -/
theorem C10_birth_year_53 (merged : EventMap) (k : Bool) (c : WeeksConfig)
    (hm0 : 0 ≤ c.birthMonth) (hm1 : c.birthMonth < 12) :
    (∀ w : Nat, w ≤ 52 →
        weekDateOf c c.startYear w < nextBirthdayOf c c.startYear ∧
        (weekBoxOf merged k c c.startYear w).isSome) ∧
    (yearBoxes merged k c c.startYear).length = 53 ∧
    ∀ b ∈ yearBoxes merged k c c.startYear, b.type ≠ BoxType.birthday := by
  have hguard : ∀ w : Nat, w ≤ 52 →
      weekDateOf c c.startYear w < nextBirthdayOf c c.startYear :=
    fun w hw => weekDateOf_lt_nextBirthday c hm0 hm1 c.startYear w hw
  refine ⟨fun w hw => ⟨hguard w hw, weekBoxOf_isSome merged k c c.startYear w (hguard w hw)⟩,
    ?_, ?_⟩
  · unfold yearBoxes
    rw [if_neg (lt_irrefl c.startYear), List.nil_append]
    rw [length_filterMap_of_isSome _ _
      (fun w hw => weekBoxOf_isSome merged k c c.startYear w
        (hguard w (weekIndices_mem_bounds hw).1))]
    rw [weekIndices_length, if_pos rfl]
  · intro b hb
    unfold yearBoxes at hb
    rw [if_neg (lt_irrefl c.startYear), List.nil_append] at hb
    rcases List.mem_filterMap.mp hb with ⟨w, _, hsome⟩
    exact (weekBoxOf_some_spec hsome).2.1

/-! ## C2: strict chronological order of the emitted sequence -/

theorem weekDateOf_strictMono (c : WeeksConfig) (year : Int) {w w' : Nat} (h : w < w') :
    weekDateOf c year w < weekDateOf c year w' := by
  rw [weekDateOf_eq, weekDateOf_eq]
  omega

theorem yearBoxes_date_ub {merged : EventMap} {k : Bool} {c : WeeksConfig}
    {year : Int} {b : GridBox} (hb : b ∈ yearBoxes merged k c year) :
    b.date ≤ mkDate year c.birthMonth c.birthDay + 364 := by
  unfold yearBoxes at hb
  rcases List.mem_append.mp hb with h | h
  · split_ifs at h with hy
    · rw [List.mem_singleton.mp h]
      simp [birthdayBox]
    · cases h
  · rcases List.mem_filterMap.mp h with ⟨w, hw, hsome⟩
    have hs := (weekBoxOf_some_spec hsome).2.2
    have hwb := (weekIndices_mem_bounds hw).1
    have := getWeekStartSunday_le (mkDate year c.birthMonth c.birthDay)
    rw [hs, weekDateOf_eq]
    omega

theorem yearBoxes_date_lb {merged : EventMap} {k : Bool} {c : WeeksConfig}
    {year : Int} {b : GridBox} (hy : c.startYear < year)
    (hb : b ∈ yearBoxes merged k c year) :
    mkDate year c.birthMonth c.birthDay ≤ b.date := by
  unfold yearBoxes at hb
  rcases List.mem_append.mp hb with h | h
  · rw [if_pos hy] at h
    rw [List.mem_singleton.mp h]
    simp [birthdayBox]
  · rcases List.mem_filterMap.mp h with ⟨w, hw, hsome⟩
    have hs := (weekBoxOf_some_spec hsome).2.2
    have hw1 := (weekIndices_mem_bounds hw).2 (by omega)
    have := getWeekStartSunday_ge (mkDate year c.birthMonth c.birthDay)
    rw [hs, weekDateOf_eq]
    omega

theorem yearBoxes_pairwise (merged : EventMap) (k : Bool) (c : WeeksConfig) (year : Int) :
    (yearBoxes merged k c year).Pairwise (fun a b => a.date < b.date) := by
  unfold yearBoxes
  rw [List.pairwise_append]
  refine ⟨?_, ?_, ?_⟩
  · split_ifs <;> simp
  · have hR : (weekIndices c year).Pairwise (fun w w' => w < w') := by
      unfold weekIndices
      exact (List.pairwise_lt_range 53).sublist (List.drop_sublist _ _)
    refine List.Pairwise.filterMap _ (fun w w' hww' b hb b' hb' => ?_) hR
    rw [Option.mem_def] at hb hb'
    rw [(weekBoxOf_some_spec hb).2.2, (weekBoxOf_some_spec hb').2.2]
    exact weekDateOf_strictMono c year hww'
  · intro a ha b hb
    split_ifs at ha with hy
    · rw [List.mem_singleton.mp ha]
      rcases List.mem_filterMap.mp hb with ⟨w, hw, hsome⟩
      have hs := (weekBoxOf_some_spec hsome).2.2
      have hw1 := (weekIndices_mem_bounds hw).2 (by omega)
      have := getWeekStartSunday_ge (mkDate year c.birthMonth c.birthDay)
      rw [hs, weekDateOf_eq]
      simp only [birthdayBox]
      omega
    · cases ha

theorem intRange_eq_cons {lo hi : Int} (h : lo ≤ hi) :
    intRange lo hi = lo :: intRange (lo + 1) hi := by
  unfold intRange
  have hn : (hi - lo + 1).toNat = (hi - (lo + 1) + 1).toNat + 1 := by omega
  rw [hn, List.range_succ_eq_map, List.map_cons, List.map_map]
  refine congrArg₂ _ (by omega) (List.map_congr_left fun i _ => ?_)
  simp only [Function.comp]
  omega

theorem intRange_eq_nil {lo hi : Int} (h : hi < lo) : intRange lo hi = [] := by
  unfold intRange
  have hn : (hi - lo + 1).toNat = 0 := by omega
  rw [hn]
  rfl

theorem pairwise_flatMap_intRange (merged : EventMap) (k : Bool) (c : WeeksConfig)
    (hm0 : 0 ≤ c.birthMonth) (hm1 : c.birthMonth < 12) :
    ∀ n : Nat, ∀ lo : Int, c.startYear ≤ lo → (c.endYear - lo + 1).toNat = n →
      ((intRange lo c.endYear).flatMap (yearBoxes merged k c)).Pairwise
        (fun a b => a.date < b.date) := by
  intro n
  induction n with
  | zero =>
    intro lo _ hn
    rw [intRange_eq_nil (by omega)]
    simp
  | succ n ih =>
    intro lo hlo hn
    rw [intRange_eq_cons (by omega), List.flatMap_cons, List.pairwise_append]
    refine ⟨yearBoxes_pairwise merged k c lo, ih (lo + 1) (by omega) (by omega), ?_⟩
    intro a ha b hb
    rcases List.mem_flatMap.mp hb with ⟨y, hy, hb'⟩
    have hyr := mem_intRange.mp hy
    have h1 := yearBoxes_date_ub ha
    have h2 := yearBoxes_date_lb (show c.startYear < y by omega) hb'
    have h3 := mkDate_succ_ge lo c.birthMonth c.birthDay hm0 hm1
    have h4 := mkDate_mono c.birthMonth c.birthDay hm0 hm1 (show lo + 1 ≤ y by omega)
    omega

/-- The emitted sequence is in fact strictly increasing in `date`. -/
theorem allBoxes_strict_chrono (merged : EventMap) (k : Bool) (c : WeeksConfig)
    (hm0 : 0 ≤ c.birthMonth) (hm1 : c.birthMonth < 12) :
    (allBoxes merged k c).Pairwise (fun a b => a.date < b.date) := by
  unfold allBoxes
  exact pairwise_flatMap_intRange merged k c hm0 hm1 _ c.startYear (le_refl _) rfl

/-- C2: Across the full emitted box sequence the `date` field is
monotonically non-decreasing, and no two boxes carry the same date unless
one of them is a birthday box (in fact the sequence is strictly
increasing, so the duplicate case never arises at all). -/
theorem C2_dates_monotone (merged : EventMap) (k : Bool) (c : WeeksConfig)
    (hm0 : 0 ≤ c.birthMonth) (hm1 : c.birthMonth < 12) :
    (allBoxes merged k c).Pairwise (fun a b =>
      a.date ≤ b.date ∧
        (a.date = b.date → a.type = BoxType.birthday ∨ b.type = BoxType.birthday)) :=
  (allBoxes_strict_chrono merged k c hm0 hm1).imp
    (fun h => ⟨le_of_lt h, fun he => absurd he (ne_of_lt h)⟩)

/-- C2 witness. -/
theorem C2_dates_monotone_witness :
    (0 : Int) ≤ 0 ∧ (0 : Int) < 12 ∧
      (allBoxes [] false ⟨2000, 2001, 0, 15⟩).Pairwise (fun a b =>
        a.date ≤ b.date ∧
          (a.date = b.date → a.type = BoxType.birthday ∨ b.type = BoxType.birthday)) :=
  ⟨by decide, by decide, C2_dates_monotone [] false ⟨2000, 2001, 0, 15⟩ (by decide) (by decide)⟩

/-- C10 witness. -/
theorem C10_birth_year_53_witness :
    (0 : Int) ≤ 0 ∧ (0 : Int) < 12 ∧
      ((∀ w : Nat, w ≤ 52 →
          weekDateOf ⟨2000, 2002, 0, 15⟩ 2000 w < nextBirthdayOf ⟨2000, 2002, 0, 15⟩ 2000 ∧
          (weekBoxOf [] false ⟨2000, 2002, 0, 15⟩ 2000 w).isSome) ∧
       (yearBoxes [] false ⟨2000, 2002, 0, 15⟩ 2000).length = 53 ∧
       ∀ b ∈ yearBoxes [] false ⟨2000, 2002, 0, 15⟩ 2000, b.type ≠ BoxType.birthday) :=
  ⟨by decide, by decide,
    C10_birth_year_53 [] false ⟨2000, 2002, 0, 15⟩ (by decide) (by decide)⟩

/-! ## C3: the week-to-day remap and the date the box carries -/

/-- C3 counterexample: the week-1 anchor of the birth year has no events;
the 7-day scan finds the event two days later and uses its events (the box
is an event box labeled by it), yet the emitted box's `date` is the anchor
date, not the found day's date, and the milestone set records the anchor
date as well — refuting the claim that the found day's date is carried and
recorded. -/
theorem C3_counterexample :
    lookupEvents cexMergedC3 (weekDateOf cexCfgC3 2000 1) = [] ∧
    scanDays cexMergedC3 (weekDateOf cexCfgC3 2000 1) (nextBirthdayOf cexCfgC3 2000)
      = some 2 ∧
    (weekBoxOf cexMergedC3 false cexCfgC3 2000 1).map GridBox.label = some "Party" ∧
    (weekBoxOf cexMergedC3 false cexCfgC3 2000 1).map GridBox.type = some BoxType.event ∧
    (weekBoxOf cexMergedC3 false cexCfgC3 2000 1).map GridBox.date
      ≠ some (weekDateOf cexCfgC3 2000 1 + 2) ∧
    weekMilestone cexMergedC3 cexCfgC3 2000 1 ≠ some (weekDateOf cexCfgC3 2000 1 + 2) ∧
    weekMilestone cexMergedC3 cexCfgC3 2000 1 = some (weekDateOf cexCfgC3 2000 1) := by
  decide

/-- C3 amended: when the anchor-started scan finds a day with events, the
emitted box uses that day's events but carries the *anchor* date as its
`date` field, and when the found day bears a milestone-flagged personal
event it is the anchor date — the value the box carries — that is recorded
in the milestone-date set (the found day's own date reaches only the
tooltip). -/
theorem C3_amended_box_carries_anchor (merged : EventMap) (k : Bool) (c : WeeksConfig)
    (year : Int) (w : Nat) (d : Nat)
    (hguard : weekDateOf c year w < nextBirthdayOf c year)
    (hscan : scanDays merged (weekDateOf c year w) (nextBirthdayOf c year) = some d) :
    (weekBoxOf merged k c year w).map GridBox.date = some (weekDateOf c year w) ∧
    eventsForWeek merged (weekDateOf c year w) (nextBirthdayOf c year)
      = lookupEvents merged (weekDateOf c year w + (d : Int)) ∧
    ((lookupEvents merged (weekDateOf c year w + (d : Int))).any milestonePred = true →
      weekMilestone merged c year w = some (weekDateOf c year w)) := by
  refine ⟨?_, ?_, ?_⟩
  · rcases Option.isSome_iff_exists.mp (weekBoxOf_isSome merged k c year w hguard)
      with ⟨b, hb⟩
    rw [hb]
    simp [(weekBoxOf_some_spec hb).2.2]
  · unfold eventsForWeek
    rw [hscan]
  · intro hms
    unfold weekMilestone
    rw [if_neg (by omega)]
    simp only [hscan]
    rw [if_pos hms]

/-- C3 amended witness. -/
theorem C3_amended_box_carries_anchor_witness :
    weekDateOf cexCfgC3 2000 1 < nextBirthdayOf cexCfgC3 2000 ∧
    scanDays cexMergedC3 (weekDateOf cexCfgC3 2000 1) (nextBirthdayOf cexCfgC3 2000)
      = some 2 ∧
    ((weekBoxOf cexMergedC3 false cexCfgC3 2000 1).map GridBox.date
        = some (weekDateOf cexCfgC3 2000 1) ∧
      eventsForWeek cexMergedC3 (weekDateOf cexCfgC3 2000 1) (nextBirthdayOf cexCfgC3 2000)
        = lookupEvents cexMergedC3 (weekDateOf cexCfgC3 2000 1 + (2 : Nat)) ∧
      ((lookupEvents cexMergedC3 (weekDateOf cexCfgC3 2000 1 + (2 : Nat))).any milestonePred
          = true →
        weekMilestone cexMergedC3 cexCfgC3 2000 1 = some (weekDateOf cexCfgC3 2000 1))) :=
  ⟨by decide, by decide,
    C3_amended_box_carries_anchor cexMergedC3 false cexCfgC3 2000 1 2 (by decide) (by decide)⟩

/-! ## C8: compact-mode suppression keeps the milestone side effect -/

/-- C8: with compact mode on and a primary event whose headline yields no
emoji glyph, the walker emits an empty `week` box instead of an event box;
the milestone side effect is independent of that suppression: whenever the
scan's found day bears a milestone-flagged personal event, the week's date
is recorded in the milestone set. -/
theorem C8_compact_suppression (merged : EventMap) (c : WeeksConfig) (year : Int) (w : Nat)
    (hguard : weekDateOf c year w < nextBirthdayOf c year) {p : MergedEvent}
    (hp : primaryEvent (eventsForWeek merged (weekDateOf c year w) (nextBirthdayOf c year))
        = some p)
    (hglyph : extractFirstEmoji p.headline = none) :
    weekBoxOf merged true c year w
      = some { type := BoxType.week, label := "", date := weekDateOf c year w,
               year := year, eventType := none } ∧
    ∀ d : Nat, scanDays merged (weekDateOf c year w) (nextBirthdayOf c year) = some d →
      (lookupEvents merged (weekDateOf c year w + (d : Int))).any milestonePred = true →
      weekMilestone merged c year w = some (weekDateOf c year w) := by
  constructor
  · have hshow : shouldShowInCompact p.headline = false := by
      unfold shouldShowInCompact
      rw [hglyph]
      rfl
    simp only [weekBoxOf]
    rw [if_neg (by omega)]
    rw [hp]
    simp [hshow]
  · intro d hd hms
    unfold weekMilestone
    rw [if_neg (by omega)]
    simp only [hd]
    rw [if_pos hms]

/-- C8 witness. -/
theorem C8_compact_suppression_witness :
    weekDateOf cexCfgC3 2000 1 < nextBirthdayOf cexCfgC3 2000 ∧
    primaryEvent (eventsForWeek cexMergedC8 (weekDateOf cexCfgC3 2000 1)
        (nextBirthdayOf cexCfgC3 2000)) = some cexEventC8 ∧
    extractFirstEmoji cexEventC8.headline = none ∧
    (weekBoxOf cexMergedC8 true cexCfgC3 2000 1
        = some { type := BoxType.week, label := "", date := weekDateOf cexCfgC3 2000 1,
                 year := 2000, eventType := none } ∧
      ∀ d : Nat,
        scanDays cexMergedC8 (weekDateOf cexCfgC3 2000 1) (nextBirthdayOf cexCfgC3 2000)
          = some d →
        (lookupEvents cexMergedC8 (weekDateOf cexCfgC3 2000 1 + (d : Int))).any milestonePred
          = true →
        weekMilestone cexMergedC8 cexCfgC3 2000 1 = some (weekDateOf cexCfgC3 2000 1)) :=
  ⟨by decide, by decide, by decide,
    C8_compact_suppression cexMergedC8 cexCfgC3 2000 1 (by decide) (p := cexEventC8)
      (by decide) (by decide)⟩

/-! ## C6 and C7: the milestone color walk -/

theorem getD_default_irrel (l : List String) (i : Nat) (h : i < l.length) (d d' : String) :
    l.getD i d = l.getD i d' := by
  rw [List.getD_eq_getElem?_getD, List.getD_eq_getElem?_getD, List.getElem?_eq_getElem h]
  rfl

theorem overridePred_getD {e : MergedEvent} (h : overridePred e = true) (x y : String) :
    e.color.getD x = e.color.getD y := by
  unfold overridePred colorTruthy at h
  cases hc : e.color with
  | none =>
    rw [hc] at h
    simp at h
  | some s => rfl

theorem foldl_override_id (evs : List MergedEvent) (col : String)
    (h : ∀ e ∈ evs, overridePred e = false) :
    evs.foldl (fun c e => if overridePred e then e.color.getD c else c) col = col := by
  induction evs generalizing col with
  | nil => rfl
  | cons a t ih =>
    rw [List.foldl_cons, if_neg (by rw [h a (List.mem_cons_self a t)]; exact Bool.false_ne_true)]
    exact ih col (fun e' he' => h e' (List.mem_cons_of_mem a he'))

/-- The override fold applies the *last* qualifying event's color: it
equals the first qualifying event of the reversed list, or the initial
color when none qualifies. -/
theorem foldl_override_find (evs : List MergedEvent) (col : String) :
    evs.foldl (fun c e => if overridePred e then e.color.getD c else c) col
      = match evs.reverse.find? overridePred with
        | some e => e.color.getD col
        | none => col := by
  induction evs generalizing col with
  | nil => rfl
  | cons a t ih =>
    rw [List.foldl_cons, List.reverse_cons, List.find?_append]
    by_cases ha : overridePred a = true
    · rw [if_pos ha, ih (a.color.getD col)]
      cases hf : t.reverse.find? overridePred with
      | none => simp [List.find?, ha]
      | some e =>
        have he := List.find?_some hf
        simp only [hf]
        exact overridePred_getD he _ _
    · rw [if_neg ha, ih col]
      cases hf : t.reverse.find? overridePred with
      | none => simp [hf, List.find?, ha]
      | some e => simp [hf]

/-- One step of the walk from a canonical state, absent overrides at the
box's date: a milestone date advances the index; the color tracks
`palette[min index (length-1)]` (in-bounds update, then freeze at the last
entry). -/
theorem colorStep_state (palette : List String) (mweeks : List Int) (merged : EventMap)
    (hpal : palette ≠ []) (k : Nat) (b : GridBox)
    (hb : ∀ e ∈ lookupEvents merged b.date, overridePred e = false) :
    colorStep palette mweeks merged
        ⟨k, palette.getD (min k (palette.length - 1)) "undefined"⟩ b
      = ⟨k + (if mweeks.contains b.date then 1 else 0),
         palette.getD (min (k + (if mweeks.contains b.date then 1 else 0))
           (palette.length - 1)) "undefined"⟩ := by
  have hlen : 0 < palette.length := List.length_pos.mpr hpal
  simp only [colorStep, foldl_override_id _ _ hb]
  by_cases hc : mweeks.contains b.date = true
  · rw [if_pos hc, if_pos hc]
    by_cases hlt : k + 1 < palette.length
    · rw [if_pos hlt]
      have hmin : min (k + 1) (palette.length - 1) = k + 1 := by omega
      rw [hmin,
        getD_default_irrel palette (k + 1) hlt
          (palette.getD (min k (palette.length - 1)) "undefined") "undefined"]
    · rw [if_neg hlt]
      have hmin : min (k + 1) (palette.length - 1) = min k (palette.length - 1) := by omega
      rw [hmin]
  · rw [if_neg hc, if_neg hc]
    simp

theorem colorWalk_fold_state (palette : List String) (mweeks : List Int) (merged : EventMap)
    (hpal : palette ≠ []) :
    ∀ (boxes : List GridBox) (k : Nat),
      (∀ b ∈ boxes, ∀ e ∈ lookupEvents merged b.date, overridePred e = false) →
      boxes.foldl (colorStep palette mweeks merged)
          ⟨k, palette.getD (min k (palette.length - 1)) "undefined"⟩
        = ⟨k + countMilestoneBoxes mweeks boxes,
           palette.getD (min (k + countMilestoneBoxes mweeks boxes) (palette.length - 1))
             "undefined"⟩ := by
  intro boxes
  induction boxes with
  | nil =>
    intro k _
    simp [countMilestoneBoxes]
  | cons b t ih =>
    intro k h
    have hb := h b (List.mem_cons_self b t)
    have ht : ∀ b' ∈ t, ∀ e ∈ lookupEvents merged b'.date, overridePred e = false :=
      fun b' hb' => h b' (List.mem_cons_of_mem b hb')
    have hcount : countMilestoneBoxes mweeks (b :: t)
        = (if mweeks.contains b.date then 1 else 0) + countMilestoneBoxes mweeks t := by
      unfold countMilestoneBoxes
      rw [List.filter_cons]
      split_ifs <;> simp [Nat.add_comm]
    rw [List.foldl_cons, colorStep_state palette mweeks merged hpal k b hb,
      ih (k + (if mweeks.contains b.date then 1 else 0)) ht, hcount]
    have : k + (if mweeks.contains b.date then 1 else 0) + countMilestoneBoxes mweeks t
        = k + ((if mweeks.contains b.date then 1 else 0) + countMilestoneBoxes mweeks t) := by
      omega
    rw [this]

/-- The color pass iterates the sorted copy of the emitted sequence; since
the walker emits strictly chronologically, the sort is the identity. -/
theorem sortedBoxes_eq_allBoxes (merged : EventMap) (k : Bool) (c : WeeksConfig)
    (hm0 : 0 ≤ c.birthMonth) (hm1 : c.birthMonth < 12) :
    sortedBoxes merged k c = allBoxes merged k c := by
  unfold sortedBoxes
  apply List.mergeSort_of_sorted
  exact (allBoxes_strict_chrono merged k c hm0 hm1).imp
    (fun hab => by simp only [decide_eq_true_eq]; omega)

/-- C6 counterexample, refuting "every milestone-flagged event's date
causes its color transition at or before the corresponding box's
position": a milestone personal event two days after the week-1 anchor is
shadowed by a non-milestone event on the anchor itself, so the day scan
(line 229) breaks before reaching it and the walk never records the
anchor; the milestone set holds only the event's raw date, which is no
box's date (all box dates are Sunday anchors here), and the color walk
over the program's milestone set and date-sorted sequence finishes with
palette index 0 and the first palette entry — no transition at any
position at all. -/
theorem C6_counterexample :
    (lookupEvents cexMergedC6 (weekDateOf cexCfgC3 2000 1 + 2)).any milestonePred = true ∧
    (weekBoxOf cexMergedC6 false cexCfgC3 2000 1).map GridBox.date
      = some (weekDateOf cexCfgC3 2000 1) ∧
    milestoneWeeks cexMergedC6 false cexCfgC3 = [weekDateOf cexCfgC3 2000 1 + 2] ∧
    (sortedBoxes cexMergedC6 false cexCfgC3).all
      (fun b => b.date != weekDateOf cexCfgC3 2000 1 + 2) = true ∧
    (colorWalk ["A", "B"] (milestoneWeeks cexMergedC6 false cexCfgC3) cexMergedC6
        (sortedBoxes cexMergedC6 false cexCfgC3)).colorIndex = 0 ∧
    (colorWalk ["A", "B"] (milestoneWeeks cexMergedC6 false cexCfgC3) cexMergedC6
        (sortedBoxes cexMergedC6 false cexCfgC3)).currentColor = "A" := by
  have heq : sortedBoxes cexMergedC6 false cexCfgC3 = allBoxes cexMergedC6 false cexCfgC3 :=
    sortedBoxes_eq_allBoxes cexMergedC6 false cexCfgC3 (by decide) (by decide)
  rw [heq]
  decide

/-- C6 amended: over any box sequence the walk traverses (in particular
the date-sorted one), absent explicit overrides: the walk starts at
palette entry 0 with a zero-based index; after any prefix, the palette
index equals the number of boxes seen whose date lies in the
milestone-date set, advancing by exactly one at each such box's own
position; the current color is `palette[min index (length-1)]` — updated
while in bounds and frozen at the last entry once the index passes the
end — and the index never decreases along the walk.  A milestone-flagged
event's date yields a transition at its week's box only when it was
recorded under a box-carried date: whenever the scan records a week (the
found day bears a milestone personal event), the anchor date the box
carries enters the program's milestone set; a milestone shadowed by an
earlier event day of its week is recorded only under its raw, non-box
date and never advances the palette. -/
theorem C6_amended_color_walk (palette : List String) (merged : EventMap) (k : Bool)
    (c : WeeksConfig) (mweeks : List Int) (boxes : List GridBox) (hpal : palette ≠ [])
    (hno : ∀ b ∈ boxes, ∀ e ∈ lookupEvents merged b.date, overridePred e = false) :
    (∀ n : Nat, colorWalk palette mweeks merged (boxes.take n)
        = ⟨countMilestoneBoxes mweeks (boxes.take n),
           palette.getD (min (countMilestoneBoxes mweeks (boxes.take n))
             (palette.length - 1)) "undefined"⟩) ∧
    (∀ n n' : Nat, n ≤ n' →
      countMilestoneBoxes mweeks (boxes.take n)
        ≤ countMilestoneBoxes mweeks (boxes.take n')) ∧
    (∀ (n : Nat) (hn : n < boxes.length),
      mweeks.contains (boxes.get ⟨n, hn⟩).date = true →
      countMilestoneBoxes mweeks (boxes.take (n + 1))
        = countMilestoneBoxes mweeks (boxes.take n) + 1) ∧
    (∀ (year : Int) (w : Nat) (d : Int), c.startYear ≤ year → year ≤ c.endYear →
      w ∈ weekIndices c year → weekMilestone merged c year w = some d →
      d ∈ milestoneWeeks merged k c) := by
  refine ⟨?_, ?_, ?_, ?_⟩
  · intro n
    have hsub : ∀ b ∈ boxes.take n, ∀ e ∈ lookupEvents merged b.date,
        overridePred e = false :=
      fun b hb => hno b (List.take_subset n boxes hb)
    have h0 : initColorState palette
        = ⟨0, palette.getD (min 0 (palette.length - 1)) "undefined"⟩ := by
      unfold initColorState
      rw [Nat.zero_min]
    unfold colorWalk
    rw [h0, colorWalk_fold_state palette mweeks merged hpal (boxes.take n) 0 hsub]
    rw [Nat.zero_add]
  · intro n n' hnn
    have hsplit : boxes.take n' = boxes.take n ++ (boxes.drop n).take (n' - n) := by
      rw [← List.take_add]
      congr 1
      omega
    unfold countMilestoneBoxes
    rw [hsplit, List.filter_append, List.length_append]
    omega
  · intro n hn hcont
    unfold countMilestoneBoxes
    rw [List.take_succ, List.getElem?_eq_getElem hn]
    rw [List.filter_append, List.length_append]
    simp only [List.get_eq_getElem] at hcont
    have hmem : boxes[n].date ∈ mweeks := by simpa using hcont
    simp [hmem]
  · intro year w d hy1 hy2 hw hsome
    unfold milestoneWeeks
    refine List.mem_append.mpr (Or.inl (List.mem_append.mpr (Or.inl ?_)))
    exact List.mem_flatMap.mpr ⟨year, mem_intRange.mpr ⟨hy1, hy2⟩,
      List.mem_filterMap.mpr ⟨w, hw, hsome⟩⟩

/-- C6 amended witness, on the shadowed-milestone instance itself. -/
theorem C6_amended_color_walk_witness :
    (["A", "B"] : List String) ≠ [] ∧
    (∀ b ∈ allBoxes cexMergedC6 false cexCfgC3,
      ∀ e ∈ lookupEvents cexMergedC6 b.date, overridePred e = false) ∧
    ((∀ n : Nat,
        colorWalk ["A", "B"] (milestoneWeeks cexMergedC6 false cexCfgC3) cexMergedC6
            ((allBoxes cexMergedC6 false cexCfgC3).take n)
          = ⟨countMilestoneBoxes (milestoneWeeks cexMergedC6 false cexCfgC3)
               ((allBoxes cexMergedC6 false cexCfgC3).take n),
             (["A", "B"] : List String).getD
               (min (countMilestoneBoxes (milestoneWeeks cexMergedC6 false cexCfgC3)
                  ((allBoxes cexMergedC6 false cexCfgC3).take n))
                 ((["A", "B"] : List String).length - 1)) "undefined"⟩) ∧
      (∀ n n' : Nat, n ≤ n' →
        countMilestoneBoxes (milestoneWeeks cexMergedC6 false cexCfgC3)
            ((allBoxes cexMergedC6 false cexCfgC3).take n)
          ≤ countMilestoneBoxes (milestoneWeeks cexMergedC6 false cexCfgC3)
              ((allBoxes cexMergedC6 false cexCfgC3).take n')) ∧
      (∀ (n : Nat) (hn : n < (allBoxes cexMergedC6 false cexCfgC3).length),
        (milestoneWeeks cexMergedC6 false cexCfgC3).contains
            ((allBoxes cexMergedC6 false cexCfgC3).get ⟨n, hn⟩).date = true →
        countMilestoneBoxes (milestoneWeeks cexMergedC6 false cexCfgC3)
            ((allBoxes cexMergedC6 false cexCfgC3).take (n + 1))
          = countMilestoneBoxes (milestoneWeeks cexMergedC6 false cexCfgC3)
              ((allBoxes cexMergedC6 false cexCfgC3).take n) + 1) ∧
      (∀ (year : Int) (w : Nat) (d : Int),
        cexCfgC3.startYear ≤ year → year ≤ cexCfgC3.endYear →
        w ∈ weekIndices cexCfgC3 year → weekMilestone cexMergedC6 cexCfgC3 year w = some d →
        d ∈ milestoneWeeks cexMergedC6 false cexCfgC3)) :=
  ⟨by decide, by decide,
    C6_amended_color_walk ["A", "B"] cexMergedC6 false cexCfgC3
      (milestoneWeeks cexMergedC6 false cexCfgC3) (allBoxes cexMergedC6 false cexCfgC3)
      (by decide) (by decide)⟩

/-- C7 counterexample: a *world* event carrying an explicit color override
at the box's date does not replace the current color — the override path
demands a milestone-flagged personal event, contradicting "regardless of
that event's source tag or milestone flag". -/
theorem C7_counterexample :
    lookupEvents cexMergedC7 0 = [cexEventC7] ∧
    colorTruthy cexEventC7.color = true ∧
    (colorWalk ["A", "B"] [] cexMergedC7 [cexBoxC6]).currentColor = "A" ∧
    (colorWalk ["A", "B"] [] cexMergedC7 [cexBoxC6]).currentColor ≠ "X" := by
  decide

/-- C7 amended: an explicit color override takes effect only when its
event is a milestone-flagged *personal* event with a truthy color; the
last such event at the current box's date replaces the current color for
that box, and the replaced color persists verbatim through every
subsequent box whose date neither lies in the milestone set nor bears a
qualifying override event. -/
theorem C7_amended_override (palette : List String) (mweeks : List Int)
    (merged : EventMap) :
    (∀ (s : ColorState) (b : GridBox) (e : MergedEvent) (col : String),
      (lookupEvents merged b.date).reverse.find? overridePred = some e →
      e.color = some col →
      (colorStep palette mweeks merged s b).currentColor = col) ∧
    (∀ (s : ColorState) (b : GridBox),
      mweeks.contains b.date = false →
      (∀ e ∈ lookupEvents merged b.date, overridePred e = false) →
      colorStep palette mweeks merged s b = s) := by
  constructor
  · intro s b e col hfind hc
    simp only [colorStep, foldl_override_find, hfind, hc]
    rfl
  · intro s b hdate hev
    simp only [colorStep, hdate, foldl_override_id _ _ hev]
    rfl

/-- C7 amended witness. -/
theorem C7_amended_override_witness :
    (lookupEvents cexMergedC7w 0).reverse.find? overridePred = some cexEventC7w ∧
    cexEventC7w.color = some "X" ∧
    (colorStep ["A", "B"] [] cexMergedC7w (initColorState ["A", "B"]) cexBoxC6).currentColor
      = "X" ∧
    ([] : List Int).contains (cexBoxC6.date) = false ∧
    (∀ e ∈ lookupEvents [] cexBoxC6.date, overridePred e = false) ∧
    colorStep ["A", "B"] [] [] (initColorState ["A", "B"]) cexBoxC6
      = initColorState ["A", "B"] :=
  ⟨by decide, by decide,
    (C7_amended_override ["A", "B"] [] cexMergedC7w).1 (initColorState ["A", "B"]) cexBoxC6
      cexEventC7w "X" (by decide) (by decide),
    by decide, by decide,
    (C7_amended_override ["A", "B"] [] []).2 (initColorState ["A", "B"]) cexBoxC6
      (by decide) (by decide)⟩

/-! ## C4: row breaking partitions the box sequence -/

theorem pack_fold_join (env : LayoutEnv) (k : Bool) (mw : Option JSNum) :
    ∀ (boxes : List GridBox) (s : List (List GridBox) × List GridBox × Int),
      (boxes.foldl (packStep env k mw) s).1.flatten
          ++ (boxes.foldl (packStep env k mw) s).2.1
        = s.1.flatten ++ s.2.1 ++ boxes := by
  intro boxes
  induction boxes with
  | nil =>
    intro s
    simp
  | cons b t ih =>
    intro s
    rw [List.foldl_cons, ih (packStep env k mw s b)]
    simp only [packStep]
    split_ifs with hbr
    · simp
    · simp

theorem pack_fold_rows_nonempty (env : LayoutEnv) (k : Bool) (mw : Option JSNum) :
    ∀ (boxes : List GridBox) (s : List (List GridBox) × List GridBox × Int),
      (∀ r ∈ s.1, r ≠ []) →
      ∀ r ∈ (boxes.foldl (packStep env k mw) s).1, r ≠ [] := by
  intro boxes
  induction boxes with
  | nil =>
    intro s h
    exact h
  | cons b t ih =>
    intro s h
    rw [List.foldl_cons]
    refine ih _ ?_
    simp only [packStep]
    split_ifs with hbr
    · intro r hr
      rcases List.mem_append.mp hr with hr | hr
      · exact h r hr
      · have hbr' := hbr
        simp at hbr'
        rw [List.mem_singleton.mp hr]
        exact hbr'.2
    · exact h

/-- C4: for every box sequence, compact flag and optional measured width,
`processBoxesIntoRows` returns rows whose in-order concatenation is
exactly the input (no reorder, drop or duplication) and that are each
non-empty (a non-empty trailing row is always flushed). -/
theorem C4_rows_partition (env : LayoutEnv) (boxes : List GridBox) (k : Bool)
    (mw : Option JSNum) :
    (processBoxesIntoRows env boxes k mw).flatten = boxes ∧
    ∀ r ∈ processBoxesIntoRows env boxes k mw, r ≠ [] := by
  simp only [processBoxesIntoRows]
  have hj := pack_fold_join env k mw boxes ([], [], 0)
  have hne := pack_fold_rows_nonempty env k mw boxes ([], [], 0) (by simp)
  constructor
  · split_ifs with hcur
    · rw [List.flatten_append]
      simpa using hj
    · have hemp : (boxes.foldl (packStep env k mw) ([], [], 0)).2.1 = [] := by
        simpa using hcur
      rw [hemp] at hj
      simpa using hj
  · split_ifs with hcur
    · intro r hr
      rcases List.mem_append.mp hr with hr | hr
      · exact hne r hr
      · rw [List.mem_singleton.mp hr]
        simpa using hcur
    · exact hne

/-! ## C9: handling of the measured width -/

/-- C9 counterexample: a *positive non-finite* measured width
(`+Infinity`) passes the `measuredWidth && measuredWidth > 0` guard, so it
is not ignored: the dynamic branch runs and the infinity propagates into
the effective container width, instead of the static desktop fallback the
claim requires. -/
theorem C9_counterexample :
    (JSNum.truthy JSNum.inf && JSNum.gtZero JSNum.inf) = true ∧
    getResponsiveConstants ⟨some 1200⟩ false (some JSNum.inf)
      = calculateDynamicConstants JSNum.inf false ∧
    (getResponsiveConstants ⟨some 1200⟩ false (some JSNum.inf)).containerWidth
      = JSNum.inf ∧
    (getResponsiveConstants ⟨some 1200⟩ false none).containerWidth = JSNum.num 668 := by
  decide

/-- C9 amended: constant resolution falls back to the static breakpoint
table — ignoring the measurement entirely — exactly for NaN, zero and
negative measured widths, and takes the dynamic branch (the
mode-dependent ladders plus the 0.95 safety-margined effective width)
exactly when the measured width is truthy and positive; that includes a
positive infinite width, which is *not* screened and propagates into the
effective container width. -/
theorem C9_amended_guard (env : LayoutEnv) (k : Bool) (n : Int) (hn : n ≤ 0)
    (m : Int) (hm : 0 < m) :
    getResponsiveConstants env k (some JSNum.nan) = getResponsiveConstants env k none ∧
    getResponsiveConstants env k (some (JSNum.num n)) = getResponsiveConstants env k none ∧
    getResponsiveConstants env k (some (JSNum.num m))
      = calculateDynamicConstants (JSNum.num m) k ∧
    getResponsiveConstants env k (some JSNum.inf) = calculateDynamicConstants JSNum.inf k := by
  refine ⟨?_, ?_, ?_, ?_⟩
  · simp [getResponsiveConstants, JSNum.truthy]
  · have hg : JSNum.gtZero (JSNum.num n) = false := by
      simp only [JSNum.gtZero, decide_eq_false_iff_not]
      omega
    simp [getResponsiveConstants, hg]
  · have hg : JSNum.gtZero (JSNum.num m) = true := by
      simp only [JSNum.gtZero, decide_eq_true_eq]
      omega
    have ht : JSNum.truthy (JSNum.num m) = true := by
      simp only [JSNum.truthy, bne_iff_ne, ne_eq]
      omega
    simp [getResponsiveConstants, hg, ht]
  · simp [getResponsiveConstants, JSNum.truthy, JSNum.gtZero]

/-- C9 amended witness. -/
theorem C9_amended_guard_witness :
    (-5 : Int) ≤ 0 ∧ (0 : Int) < 400 ∧
      (getResponsiveConstants ⟨some 800⟩ false (some JSNum.nan)
          = getResponsiveConstants ⟨some 800⟩ false none ∧
        getResponsiveConstants ⟨some 800⟩ false (some (JSNum.num (-5)))
          = getResponsiveConstants ⟨some 800⟩ false none ∧
        getResponsiveConstants ⟨some 800⟩ false (some (JSNum.num 400))
          = calculateDynamicConstants (JSNum.num 400) false ∧
        getResponsiveConstants ⟨some 800⟩ false (some JSNum.inf)
          = calculateDynamicConstants JSNum.inf false) :=
  ⟨by decide, by decide,
    C9_amended_guard ⟨some 800⟩ false (-5) (by decide) 400 (by decide)⟩

/-! ## C5: row widths and the break condition -/

theorem rowWidth_append_single (env : LayoutEnv) (k : Bool) (mw : Option JSNum)
    (r : List GridBox) (b : GridBox) :
    rowWidth env k mw (r ++ [b]) = rowWidth env k mw r + boxWidthOf env k mw b := by
  simp [rowWidth]

theorem rowWidth_single (env : LayoutEnv) (k : Bool) (mw : Option JSNum) (b : GridBox) :
    rowWidth env k mw [b] = boxWidthOf env k mw b := by
  simp [rowWidth]

/-- On a label/type-consistent box, the break test measures exactly the
width the accumulator will add. -/
theorem shouldBreak_eq_boxWidth (env : LayoutEnv) (k : Bool) (mw : Option JSNum)
    (b : GridBox) (hb : labelConsistent b) (w : Int) :
    shouldBreakBeforeBox env w b.label k mw
      = geJS (w + boxWidthOf env k mw b)
          (getResponsiveConstants env k mw).containerWidth := by
  simp only [shouldBreakBeforeBox, boxWidthOf]
  by_cases hl : b.label = ""
  · have h1 : b.label.isEmpty = true := (String.isEmpty_iff b.label).mpr hl
    have h2 : b.type = BoxType.week := hb.mpr hl
    rw [h1, if_pos h2]
    simp
  · have h1 : b.label.isEmpty = false := by
      cases hfoo : b.label.isEmpty
      · rfl
      · exact absurd ((String.isEmpty_iff b.label).mp hfoo) hl
    have h2 : ¬b.type = BoxType.week := fun h => hl (hb.mp h)
    rw [h1, if_neg h2]
    simp

theorem packStep_inv (env : LayoutEnv) (k : Bool) (mw : Option JSNum)
    (s : List (List GridBox) × List GridBox × Int) (b : GridBox)
    (hb : labelConsistent b) (hinv : packInv env k mw s) :
    packInv env k mw (packStep env k mw s b) := by
  obtain ⟨hw, hemp, hrows, hcur, hchain⟩ := hinv
  simp only [packStep]
  split_ifs with hbr
  · have hbr' := hbr
    simp at hbr'
    have hcurne : s.2.1 ≠ [] := hbr'.2
    have hforce : geJS (rowWidth env k mw s.2.1 + boxWidthOf env k mw b)
        (getResponsiveConstants env k mw).containerWidth = true := by
      have h := hbr'.1
      rw [shouldBreak_eq_boxWidth env k mw b hb, hw] at h
      exact h
    refine ⟨?_, ?_, ?_, ?_, ?_⟩
    · rw [rowWidth_single]
    · intro h
      cases h
    · intro r hr
      rcases List.mem_append.mp hr with hr | hr
      · exact hrows r hr
      · rw [List.mem_singleton.mp hr]
        exact hcur hcurne
    · intro _
      left
      rfl
    · intro _
      rw [List.chain'_append]
      refine ⟨hchain hcurne, List.chain'_singleton _, ?_⟩
      intro x hx y hy
      rw [List.getLast?_concat] at hx
      simp only [Option.mem_def, Option.some.injEq, List.head?_cons] at hx hy
      subst hx
      subst hy
      intro bb hbb
      simp only [Option.mem_def, List.head?_cons, Option.some.injEq] at hbb
      subst hbb
      exact hforce
  · refine ⟨?_, ?_, ?_, ?_, ?_⟩
    · rw [rowWidth_append_single, hw]
    · intro h
      exact absurd h (by simp)
    · exact hrows
    · intro _
      by_cases hce : s.2.1 = []
      · left
        rw [hce]
        rfl
      · right
        have hsb : shouldBreakBeforeBox env s.2.2 b.label k mw = false := by
          cases hfoo : shouldBreakBeforeBox env s.2.2 b.label k mw
          · rfl
          · exfalso
            apply hbr
            rw [hfoo]
            have : s.2.1.isEmpty = false := by
              cases hbar : s.2.1.isEmpty
              · rfl
              · exact absurd (List.isEmpty_iff.mp hbar) hce
            rw [this]
            rfl
        rw [shouldBreak_eq_boxWidth env k mw b hb, hw] at hsb
        rw [rowWidth_append_single]
        exact hsb
    · intro _
      by_cases hce : s.2.1 = []
      · have hrows0 : s.1 = [] := hemp hce
        rw [hce, hrows0]
        simp
      · obtain ⟨c0, ctl, hc⟩ := List.exists_cons_of_ne_nil hce
        have hchain' := hchain hce
        rw [List.chain'_append] at hchain' ⊢
        refine ⟨hchain'.1, List.chain'_singleton _, ?_⟩
        intro x hx y hy
        rw [List.head?_cons, Option.mem_def, Option.some.injEq] at hy
        subst hy
        have hedge := hchain'.2.2 x hx s.2.1
          (by rw [List.head?_cons]; rfl)
        intro bb hbb
        rw [hc, List.cons_append, List.head?_cons, Option.mem_def, Option.some.injEq] at hbb
        subst hbb
        exact hedge c0 (by rw [hc, List.head?_cons]; rfl)

theorem packInv_init (env : LayoutEnv) (k : Bool) (mw : Option JSNum) :
    packInv env k mw ([], [], 0) :=
  ⟨rfl, fun _ => rfl, by simp, fun h => absurd rfl h, fun h => absurd rfl h⟩

theorem pack_fold_inv (env : LayoutEnv) (k : Bool) (mw : Option JSNum) :
    ∀ (boxes : List GridBox) (s : List (List GridBox) × List GridBox × Int),
      (∀ b ∈ boxes, labelConsistent b) → packInv env k mw s →
      packInv env k mw (boxes.foldl (packStep env k mw) s) := by
  intro boxes
  induction boxes with
  | nil =>
    intro s _ h
    exact h
  | cons b t ih =>
    intro s hlab hinv
    rw [List.foldl_cons]
    exact ih _ (fun b' hb' => hlab b' (List.mem_cons_of_mem b hb'))
      (packStep_inv env k mw s b (hlab b (List.mem_cons_self b t)) hinv)

set_option maxRecDepth 10000 in
/-- C5 counterexample: with measured width 1200 (so the dynamic padding is
8 and the effective width is 1140) and viewport 500 (so the empty-cell
width is 18), sixty event-type boxes with empty labels are packed into one
sixty-box row whose accumulated width is 1140 — reaching the effective
container width — because the break test measured each of them at the
18px empty-cell width while the accumulator added the 19px labeled-box
width.  This refutes the claim that every multi-box row stays strictly
below the effective width. -/
theorem C5_counterexample :
    processBoxesIntoRows cexEnvC5 cexBoxesC5 false cexMwC5 = [cexBoxesC5] ∧
    cexBoxesC5.length = 60 ∧
    rowWidth cexEnvC5 false cexMwC5 cexBoxesC5 = 1140 ∧
    (getResponsiveConstants cexEnvC5 false cexMwC5).containerWidth = JSNum.num 1140 ∧
    geJS (rowWidth cexEnvC5 false cexMwC5 cexBoxesC5)
      (getResponsiveConstants cexEnvC5 false cexMwC5).containerWidth = true := by
  decide

/-- C5 amended: on box sequences whose labels are empty exactly for week
boxes — all sequences the calendar walker emits, as long as shown event
headlines are non-empty — every produced row is strictly below the
effective container width or is a single (possibly over-wide) box, which
still becomes its own row; adjacent rows are separated only by forced
breaks (the next row's first box would have pushed the previous row to or
beyond the effective width, i.e. the break test fires exactly when the
running width plus the next box's width reaches or exceeds the effective
width while the row is non-empty). -/
theorem C5_rows_below_width (env : LayoutEnv) (boxes : List GridBox) (k : Bool)
    (mw : Option JSNum) (hlab : ∀ b ∈ boxes, labelConsistent b) :
    (∀ r ∈ processBoxesIntoRows env boxes k mw, rowBelow env k mw r) ∧
    List.Chain' (forcedBreak env k mw) (processBoxesIntoRows env boxes k mw) ∧
    (∀ b : GridBox, labelConsistent b → ∀ w : Int,
      shouldBreakBeforeBox env w b.label k mw
        = geJS (w + boxWidthOf env k mw b)
            (getResponsiveConstants env k mw).containerWidth) := by
  obtain ⟨hw, hemp, hrows, hcur, hchain⟩ :=
    pack_fold_inv env k mw boxes ([], [], 0) hlab (packInv_init env k mw)
  refine ⟨?_, ?_, fun b hb w => shouldBreak_eq_boxWidth env k mw b hb w⟩
  · simp only [processBoxesIntoRows]
    split_ifs with hne
    · have hcne : (boxes.foldl (packStep env k mw) ([], [], 0)).2.1 ≠ [] := by
        simpa using hne
      intro r hr
      rcases List.mem_append.mp hr with hr | hr
      · exact hrows r hr
      · rw [List.mem_singleton.mp hr]
        exact hcur hcne
    · exact hrows
  · simp only [processBoxesIntoRows]
    split_ifs with hne
    · have hcne : (boxes.foldl (packStep env k mw) ([], [], 0)).2.1 ≠ [] := by
        simpa using hne
      exact hchain hcne
    · have hcemp : (boxes.foldl (packStep env k mw) ([], [], 0)).2.1 = [] := by
        simpa using hne
      rw [hemp hcemp]
      exact List.chain'_nil

/-- C5 amended witness. -/
theorem C5_rows_below_width_witness :
    (∀ b ∈ [wBoxC5, wBoxC5, wBoxC5], labelConsistent b) ∧
    ((∀ r ∈ processBoxesIntoRows ⟨some 500⟩ [wBoxC5, wBoxC5, wBoxC5] false none,
        rowBelow ⟨some 500⟩ false none r) ∧
      List.Chain' (forcedBreak ⟨some 500⟩ false none)
        (processBoxesIntoRows ⟨some 500⟩ [wBoxC5, wBoxC5, wBoxC5] false none) ∧
      (∀ b : GridBox, labelConsistent b → ∀ w : Int,
        shouldBreakBeforeBox ⟨some 500⟩ w b.label false none
          = geJS (w + boxWidthOf ⟨some 500⟩ false none b)
              (getResponsiveConstants ⟨some 500⟩ false none).containerWidth)) :=
  ⟨by simp [labelConsistent, wBoxC5],
    C5_rows_below_width ⟨some 500⟩ [wBoxC5, wBoxC5, wBoxC5] false none
      (by simp [labelConsistent, wBoxC5])⟩

end LifeWeeks
